import Mathlib

/-
Verification of the compysition actor-runtime core against its
natural-language specification.

Shallow embedding conventions:
* A Queue object is identified by a natural-number id; queue-object
  identity ("the same Queue instance appears in two pools") is equality
  of ids.
* A name → Queue mapping of a QueuePool is a function
  `String → Option Nat`.
* Actors are identified by their name; the global system state `Sys`
  maps each actor name to its QueuePool and carries a fresh-id counter
  for newly constructed Queue objects.
* Python methods that mutate state and may raise become Lean functions
  `state → args → Option Err × state`; mutations performed before a
  raise are reflected in the returned state (in `connect_queue` the
  raises happen before any mutation, which the embedding mirrors).
-/

namespace Compysition

/-- A name → queue-id mapping of a QueuePool. -/
def QMap : Type := String → Option Nat

/-- The empty mapping. -/
def QMap.empty : QMap := fun _ => none

/-- Install (or overwrite) an entry. -/
def QMap.upd (m : QMap) (k : String) (v : Nat) : QMap :=
  fun n => if n = k then some v else m n

/-- Replace every occurrence of queue id `src` by `dst`, keeping names. -/
def QMap.replaceVal (m : QMap) (src dst : Nat) : QMap :=
  fun n => (m n).map (fun v => if v = src then dst else v)

/-- Modelled from the spec: the QueuePool of one actor (the class itself
lives in compysition/queue.py, which is not among the provided sources).
Four disjoint name → Queue mappings: `inbound`, `outbound`, `error`, and
the reserved (default outbound) mapping holding `logs`, `metrics`,
`failed`. -/
structure APool where
  inbound_queues : QMap
  outbound_queues : QMap
  error_queues : QMap
  default_outbound_queues : QMap

/-- The two source-queue scopes `Actor.connect_queue` distinguishes:
the reserved default-outbound mapping and the plain outbound mapping. -/
inductive Scope
  | defaultOutbound
  | outbound
deriving DecidableEq

/-- Modelled from the spec: `QueuePool.add_outbound_queue(name, queue=None)`
(compysition/queue.py is not among the provided sources): if a queue is
given, adopt the shared object; else create a fresh bounded Queue.  The
caller supplies the fresh id; the result is the updated pool paired with
the id of the installed queue. -/
def APool.add_outbound_queue (p : APool) (name : String) (queue : Option Nat)
    (fresh : Nat) : APool × Nat :=
  let q := queue.getD fresh
  ({ p with outbound_queues := p.outbound_queues.upd name q }, q)

/-- Modelled from the spec: `QueuePool.add_error_queue(name, queue=None)`,
same shape as `add_outbound_queue` but installing into the error mapping. -/
def APool.add_error_queue (p : APool) (name : String) (queue : Option Nat)
    (fresh : Nat) : APool × Nat :=
  let q := queue.getD fresh
  ({ p with error_queues := p.error_queues.upd name q }, q)

/-- Modelled from the spec: `QueuePool.add_inbound_queue(name, queue=q)`
adopts the shared queue object into the inbound mapping. -/
def APool.add_inbound_queue (p : APool) (name : String) (q : Nat) : APool :=
  { p with inbound_queues := p.inbound_queues.upd name q }

/-- Modelled from the spec: `QueuePool.move_queue(src, dst, scope)` replaces
`src` in the given scope with `dst` under the same name (pending content
is drained into `dst`; only the mapping change matters for wiring). -/
def APool.move_queue (p : APool) (src dst : Nat) (scope : Scope) : APool :=
  match scope with
  | .defaultOutbound =>
      { p with default_outbound_queues :=
          p.default_outbound_queues.replaceVal src dst }
  | .outbound =>
      { p with outbound_queues := p.outbound_queues.replaceVal src dst }

/-- Global system state: every actor name owns a QueuePool; `fresh` is the
next id handed to a newly created Queue object. -/
structure Sys where
  pools : String → APool
  fresh : Nat

/-- Replace the pool of actor `a`. -/
def Sys.upd (s : Sys) (a : String) (p : APool) : Sys :=
  { s with pools := fun n => if n = a then p else s.pools n }

/-- The error raised on rewiring an already-connected endpoint
(compysition/errors.QueueConnected), carrying the offending queue name. -/
inductive CErr
  | queueConnected (queue_name : String)
deriving DecidableEq

/-- Source-queue lookup of `Actor.connect_queue` (actor.py lines 92-96):
reserved default-outbound first, else plain outbound. -/
def lookupSource (p : APool) (name : String) : Option Nat :=
  match p.default_outbound_queues name with
  | some q => some q
  | none => p.outbound_queues name

/-- The scope the source lookup hit (actor.py lines 93/96). -/
def lookupScope (p : APool) (name : String) : Scope :=
  match p.default_outbound_queues name with
  | some _ => .defaultOutbound
  | none => .outbound

/-- `Actor.register_consumer(queue_name, queue)` on actor `dest`
(actor.py lines 134-139): adopt the queue into the inbound mapping (the
spawned worker is modelled separately by the lifecycle traces). -/
def register_consumer (s : Sys) (dest : String) (queue_name : String)
    (q : Nat) : Sys :=
  s.upd dest ((s.pools dest).add_inbound_queue queue_name q)

/-- `Actor.connect_queue(source_queue_name, destination,
destination_queue_name, error_queue, check_existing)` invoked on actor
`self` (actor.py lines 87-127).  Returns the raised error, if any, and
the resulting state; both raises happen before any mutation. -/
def connect_queue (s : Sys) (self dest : String)
    (source_queue_name destination_queue_name : String)
    (error_queue check_existing : Bool) : Option CErr × Sys :=
  let source_queue := lookupSource (s.pools self) source_queue_name
  let source_queue_scope := lookupScope (s.pools self) source_queue_name
  let destination_queue :=
    (s.pools dest).inbound_queues destination_queue_name
  if check_existing && source_queue.isSome then
    (some (.queueConnected source_queue_name), s)
  else if check_existing && destination_queue.isSome then
    (some (.queueConnected destination_queue_name), s)
  else
    match source_queue with
    | none =>
        match destination_queue with
        | none =>
            let pq :=
              if error_queue then
                (s.pools self).add_error_queue source_queue_name none s.fresh
              else
                (s.pools self).add_outbound_queue source_queue_name none s.fresh
            let s1 : Sys := { s.upd self pq.1 with fresh := s.fresh + 1 }
            (none, register_consumer s1 dest destination_queue_name pq.2)
        | some dq =>
            let pq :=
              if error_queue then
                (s.pools self).add_error_queue source_queue_name (some dq) s.fresh
              else
                (s.pools self).add_outbound_queue source_queue_name (some dq) s.fresh
            (none, s.upd self pq.1)
    | some sq =>
        match destination_queue with
        | none =>
            (none, register_consumer s dest destination_queue_name sq)
        | some dq =>
            (none, s.upd self
              ((s.pools self).move_queue sq dq source_queue_scope))

/-- `add_inbound_queue` leaves the outbound mapping untouched. -/
theorem add_inbound_outbound (p : APool) (n : String) (q : Nat) :
    (p.add_inbound_queue n q).outbound_queues = p.outbound_queues := rfl

/-- `add_inbound_queue` leaves the error mapping untouched. -/
theorem add_inbound_error (p : APool) (n : String) (q : Nat) :
    (p.add_inbound_queue n q).error_queues = p.error_queues := rfl

/-- Reading an updated map at the updated key. -/
theorem QMap.upd_self (m : QMap) (k : String) (v : Nat) :
    m.upd k v k = some v := by
  simp [QMap.upd]

/-- Reading an updated map at another key. -/
theorem QMap.upd_other (m : QMap) (k n : String) (v : Nat) (h : n ≠ k) :
    m.upd k v n = m n := by
  simp [QMap.upd, h]

/-- Reading the pools of an updated system at the updated actor. -/
theorem Sys.upd_pools_self (s : Sys) (a : String) (p : APool) :
    (s.upd a p).pools a = p := by
  simp [Sys.upd]

/-- Reading the pools of an updated system at another actor. -/
theorem Sys.upd_pools_other (s : Sys) (a n : String) (p : APool) (h : n ≠ a) :
    (s.upd a p).pools n = s.pools n := by
  simp [Sys.upd, h]

/-- A pool with all four mappings empty, as a freshly constructed actor
before any wiring (ignoring the reserved queues, which the wiring claims
do not need). -/
def emptyPool : APool :=
  { inbound_queues := QMap.empty, outbound_queues := QMap.empty,
    error_queues := QMap.empty, default_outbound_queues := QMap.empty }

/-- A system in which every actor still has empty pools. -/
def sys0 : Sys := { pools := fun _ => emptyPool, fresh := 0 }

/-- C1: when producer `S` has no outbound or reserved-outbound queue named
`sn` and consumer `D` has no inbound queue named `dn`,
`S.connect_queue(sn, D, dn)` succeeds and installs one and the same Queue
object as `S`'s outbound entry `sn` and as `D`'s inbound entry `dn`. -/
theorem connect_queue_aliases (s : Sys) (S D sn dn : String)
    (hd : (s.pools S).default_outbound_queues sn = none)
    (ho : (s.pools S).outbound_queues sn = none)
    (hi : (s.pools D).inbound_queues dn = none) :
    (connect_queue s S D sn dn false true).1 = none ∧
    ∃ q,
      ((connect_queue s S D sn dn false true).2.pools S).outbound_queues sn
        = some q ∧
      ((connect_queue s S D sn dn false true).2.pools D).inbound_queues dn
        = some q := by
  have hls : lookupSource (s.pools S) sn = none := by
    simp [lookupSource, hd, ho]
  refine ⟨?_, s.fresh, ?_, ?_⟩
  · simp [connect_queue, hls, hi]
  · by_cases hSD : S = D
    · subst hSD
      simp [connect_queue, hls, hi, register_consumer,
        APool.add_outbound_queue, APool.add_inbound_queue, Sys.upd, QMap.upd]
    · simp [connect_queue, hls, hi, register_consumer,
        APool.add_outbound_queue, APool.add_inbound_queue, Sys.upd, hSD,
        QMap.upd]
  · by_cases hSD : S = D
    · subst hSD
      simp [connect_queue, hls, hi, register_consumer,
        APool.add_outbound_queue, APool.add_inbound_queue, Sys.upd, QMap.upd]
    · simp [connect_queue, hls, hi, register_consumer,
        APool.add_outbound_queue, APool.add_inbound_queue, Sys.upd, hSD,
        QMap.upd]

/-- C1 witness: the aliasing theorem applied to two fresh actors. -/
theorem connect_queue_aliases_witness :
    (connect_queue sys0 "S" "D" "out" "in" false true).1 = none ∧
    ∃ q,
      ((connect_queue sys0 "S" "D" "out" "in" false true).2.pools
        "S").outbound_queues "out" = some q ∧
      ((connect_queue sys0 "S" "D" "out" "in" false true).2.pools
        "D").inbound_queues "in" = some q :=
  connect_queue_aliases sys0 "S" "D" "out" "in" rfl rfl rfl

/-- C3: re-wiring an already-wired source queue name with
`check_existing=true` raises QueueConnected naming the source queue, and
returns with the whole system state exactly as it was before the failing
call (both raises in `connect_queue` happen before any mutation). -/
theorem connect_queue_reconnect_raises (s : Sys) (S D sn dn : String)
    (e : Bool) (q : Nat)
    (hs : lookupSource (s.pools S) sn = some q) :
    connect_queue s S D sn dn e true = (some (.queueConnected sn), s) := by
  simp [connect_queue, hs]

/-- C3 witness: wire two fresh actors once, then observe that the second
identical call raises and leaves the state of the first call intact. -/
theorem connect_queue_reconnect_raises_witness :
    lookupSource
      (((connect_queue sys0 "S" "D" "out" "in" false true).2.pools "S"))
      "out" = some 0 ∧
    connect_queue (connect_queue sys0 "S" "D" "out" "in" false true).2
        "S" "D" "out" "in" false true =
      (some (.queueConnected "out"),
        (connect_queue sys0 "S" "D" "out" "in" false true).2) :=
  ⟨rfl, connect_queue_reconnect_raises
    (connect_queue sys0 "S" "D" "out" "in" false true).2
    "S" "D" "out" "in" false 0 rfl⟩

/-- A system whose actor `D` already has an inbound queue `in` (id 5) and
whose other pools are empty. -/
def sysD : Sys :=
  { pools := fun n =>
      if n = "D" then
        { emptyPool with inbound_queues := QMap.empty.upd "in" 5 }
      else emptyPool,
    fresh := 6 }

/-- C10: with `check_existing=true`, `connect_queue` raises QueueConnected
naming the destination queue whenever the destination actor already has
an inbound queue under that name, even though the producer has no source
queue under the source name; the adopt-destination-queue case succeeds
only with `check_existing=false`, in which case the producer's outbound
(or error) entry becomes the destination's existing Queue object. -/
theorem connect_queue_dest_existing (s : Sys) (S D sn dn : String)
    (e : Bool) (q : Nat)
    (hs : lookupSource (s.pools S) sn = none)
    (hdq : (s.pools D).inbound_queues dn = some q) :
    connect_queue s S D sn dn e true = (some (.queueConnected dn), s) ∧
    (connect_queue s S D sn dn e false).1 = none ∧
    cond e
      (((connect_queue s S D sn dn e false).2.pools S).error_queues sn)
      (((connect_queue s S D sn dn e false).2.pools S).outbound_queues sn)
      = some q := by
  refine ⟨?_, ?_, ?_⟩
  · simp [connect_queue, hs, hdq]
  · simp [connect_queue, hs, hdq]
  · cases e <;>
      simp [connect_queue, hs, hdq, APool.add_outbound_queue,
        APool.add_error_queue, Sys.upd, QMap.upd]

/-- C10 witness: the destination-exists behaviour at a concrete system. -/
theorem connect_queue_dest_existing_witness :
    connect_queue sysD "S" "D" "out" "in" false true =
      (some (.queueConnected "in"), sysD) ∧
    (connect_queue sysD "S" "D" "out" "in" false false).1 = none ∧
    cond false
      (((connect_queue sysD "S" "D" "out" "in" false false).2.pools
        "S").error_queues "out")
      (((connect_queue sysD "S" "D" "out" "in" false false).2.pools
        "S").outbound_queues "out")
      = some 5 :=
  connect_queue_dest_existing sysD "S" "D" "out" "in" false 5 rfl rfl

/-- An event: `objId` is the Python object identity, `data` the mutable
payload (its shape does not matter to the claims, so it is a number). -/
structure Ev where
  objId : Nat
  data : Nat
deriving DecidableEq

/-- `copy.deepcopy` of an event: equal data, fresh object identity
(the caller supplies the fresh id). -/
def deepcopy (e : Ev) (fresh : Nat) : Ev := { objId := fresh, data := e.data }

/-- The copy loop of `Actor.__loop_submit` after the first submission
(actor.py lines 202-204): every remaining queue receives a deep copy of
the original event.  Fresh object ids are consumed in order. -/
def loopSubmitCopies (e : Ev) (queues : List Nat) (fresh : Nat) :
    List (Nat × Ev) :=
  match queues with
  | [] => []
  | q :: rest => (q, deepcopy e fresh) :: loopSubmitCopies e rest (fresh + 1)

/-- `Actor.__loop_submit(event, queues)` (actor.py lines 194-206): the
first queue receives the event itself, every later queue a deep copy;
an empty queue sequence submits nothing (StopIteration is swallowed).
The result is the list of (queue, event) submissions in order. -/
def loop_submit (e : Ev) (queues : List Nat) (fresh : Nat) :
    List (Nat × Ev) :=
  match queues with
  | [] => []
  | q :: rest => (q, e) :: loopSubmitCopies e rest fresh

/-- `Actor.send_event(event, queue, queues)` (actor.py lines 168-182):
with `queue` given submit only there; otherwise iterate `queues` when
truthy (a non-empty list), else all outbound queues. -/
def send_event (e : Ev) (queue : Option Nat) (queues : Option (List Nat))
    (outbound : List Nat) (fresh : Nat) : List (Nat × Ev) :=
  match queue with
  | some q => [(q, e)]
  | none =>
      let send_queues :=
        match queues with
        | some (q :: rest) => q :: rest
        | _ => outbound
      loop_submit e send_queues fresh

/-- The error kinds a send path could surface; compysition/errors.py
defines NoConnectedQueues for a send without any target. -/
inductive SendErr
  | noConnectedQueues
deriving DecidableEq

/-- `Actor.send_error(event, queue, queues)` (actor.py lines 184-192):
when `queues` is falsy it is replaced by the error-queue values; the send
happens only when the resulting list is truthy or `queue` is given,
otherwise the call returns silently.  The first component is the error
surfaced to the caller, if any. -/
def send_error (e : Ev) (queue : Option Nat) (queues : Option (List Nat))
    (error_queues : List Nat) (outbound : List Nat) (fresh : Nat) :
    Option SendErr × List (Nat × Ev) :=
  let qs :=
    match queues with
    | some (q :: rest) => q :: rest
    | _ => error_queues
  if qs.isEmpty && queue.isNone then
    (none, [])
  else
    (none, send_event e queue (some qs) outbound fresh)

/-- C2: fan-out copy semantics of `send_event`.  Without a single-queue
argument, the first target queue receives the original event object and
every subsequent target receives a deep copy with equal data but a
different object identity; with a single queue given, only that queue
receives the event and no copy is made. -/
theorem send_event_copy_on_fanout (e : Ev) (q0 : Nat) (rest outbound : List Nat)
    (q1 : Nat) (qs : Option (List Nat)) (fresh : Nat)
    (hf : e.objId < fresh) :
    (∃ tail,
      send_event e none none (q0 :: rest) fresh = (q0, e) :: tail ∧
      send_event e none (some (q0 :: rest)) outbound fresh = (q0, e) :: tail ∧
      List.Forall₂
        (fun q p => p.1 = q ∧ p.2.data = e.data ∧ p.2.objId ≠ e.objId)
        rest tail) ∧
    send_event e (some q1) qs outbound fresh = [(q1, e)] := by
  refine ⟨⟨loopSubmitCopies e rest fresh, rfl, rfl, ?_⟩, rfl⟩
  induction rest generalizing fresh with
  | nil => exact List.Forall₂.nil
  | cons q rest ih =>
      refine List.Forall₂.cons ⟨rfl, rfl, ?_⟩ (ih (fresh + 1) (Nat.lt_succ_of_lt hf))
      simp only [deepcopy]
      omega

/-- C2 witness: fan-out of a concrete event over three queues. -/
theorem send_event_copy_on_fanout_witness :
    (∃ tail,
      send_event ⟨0, 42⟩ none none [1, 2, 3] 7 = (1, ⟨0, 42⟩) :: tail ∧
      send_event ⟨0, 42⟩ none (some [1, 2, 3]) [] 7 = (1, ⟨0, 42⟩) :: tail ∧
      List.Forall₂
        (fun q p => p.1 = q ∧ p.2.data = (⟨0, 42⟩ : Ev).data ∧
          p.2.objId ≠ (⟨0, 42⟩ : Ev).objId)
        [2, 3] tail) ∧
    send_event ⟨0, 42⟩ (some 9) none [] 7 = [(9, ⟨0, 42⟩)] :=
  send_event_copy_on_fanout ⟨0, 42⟩ 1 [2, 3] [] 9 none 7 (by decide)

/-- C4 counterexample: a send with no target does NOT surface
NoConnectedQueues.  `send_error` with no queue, no queues and an empty
error-queue map returns silently with no error and no submission, and
`send_event` with no outbound queues submits nothing and raises
nothing. -/
theorem send_no_target_silent_counterexample :
    send_error ⟨0, 1⟩ none none [] [] 0 = (none, []) ∧
    send_event ⟨0, 1⟩ none none [] 0 = [] := by
  constructor <;> rfl

/-- C4 amended: a send invoked with no target silently does nothing:
`send_error` with no queue, no queues and an empty error-queue map
returns without submitting and without surfacing any error, and
`send_event` with no outbound queues submits to no queue. -/
theorem send_no_target_silently_drops (e : Ev) (fresh : Nat)
    (outbound : List Nat) :
    send_error e none none [] outbound fresh = (none, []) ∧
    send_event e none none [] fresh = [] := by
  constructor <;> rfl

/-- The exception kinds a user consume function may raise that
`Actor.__do_consume` distinguishes: QueueFull and anything else. -/
inductive ConsErr
  | queueFull
  | otherExc
deriving DecidableEq

/-- Target stream of a traceback print. -/
inductive PrintTarget
  | standardOut
  | standardErr
deriving DecidableEq

/-- Modelled from the spec: `Queue.rescue(e)` (compysition/queue.py is not
among the provided sources) reinserts the event at the head of the queue
for retry; the queue is the list of pending events, head first. -/
def rescue (q : List Ev) (e : Ev) : List Ev := e :: q

/-- The observable outcome of one `Actor.__do_consume` dispatch. -/
structure DoConsumeOut where
  queue : List Ev
  prints : List PrintTarget
  loggerErrorCalls : Nat
  waitedUntilFree : Bool
  raised : Option ConsErr
deriving DecidableEq

/-- `Actor.__do_consume(function, event, queue, original_data)` (actor.py
lines 252-266).  The user consume function is modelled as returning the
(possibly mutated in place) event together with the exception it raises,
if any.  On QueueFull the event data is restored to the snapshot, the
event is rescued to the head of the originating queue and the worker
blocks on the error's wait handle; on any other exception the traceback
is printed (a Python 2 print statement, which writes to standard output)
and logged via the actor's logger, and the event is dropped; nothing
propagates out of the dispatch. -/
def do_consume (function : Ev → Ev × Option ConsErr) (event : Ev)
    (queue : List Ev) (original_data : Nat) : DoConsumeOut :=
  match function event with
  | (_, none) =>
      { queue := queue, prints := [], loggerErrorCalls := 0,
        waitedUntilFree := false, raised := none }
  | (e2, some .queueFull) =>
      let restored : Ev := { e2 with data := original_data }
      { queue := rescue queue restored, prints := [], loggerErrorCalls := 0,
        waitedUntilFree := true, raised := none }
  | (_, some .otherExc) =>
      { queue := queue, prints := [.standardOut], loggerErrorCalls := 1,
        waitedUntilFree := false, raised := none }

/-- C5 counterexample: on a non-QueueFull consume exception the traceback
is printed by a Python 2 print statement, which writes to standard
OUTPUT, not to standard error as the claim states (the code comment even
says it wants STDOUT in case the log actor itself is broken). -/
theorem do_consume_prints_stdout_counterexample :
    (do_consume (fun e => (e, some .otherExc)) ⟨0, 1⟩ [] 1).prints
      = [.standardOut] ∧
    PrintTarget.standardErr ∉
      (do_consume (fun e => (e, some .otherExc)) ⟨0, 1⟩ [] 1).prints := by
  constructor
  · rfl
  · decide

/-- C5 amended: on QueueFull the event's data is restored to the deep
snapshot taken before consume ran, the event is reinserted at the head of
its originating queue via rescue, and the worker blocks on the error's
wait handle; on any other exception the traceback is printed to standard
output (not standard error) and logged via the actor's logger, the event
is not re-enqueued, and nothing propagates (the worker continues). -/
theorem do_consume_error_handling (function : Ev → Ev × Option ConsErr)
    (event e2 : Ev) (queue : List Ev) (od : Nat) :
    (function event = (e2, some .queueFull) →
      (do_consume function event queue od).queue
        = rescue queue { e2 with data := od } ∧
      ({ e2 with data := od } : Ev).data = od ∧
      (do_consume function event queue od).waitedUntilFree = true ∧
      (do_consume function event queue od).raised = none) ∧
    (function event = (e2, some .otherExc) →
      (do_consume function event queue od).queue = queue ∧
      (do_consume function event queue od).prints = [.standardOut] ∧
      (do_consume function event queue od).loggerErrorCalls = 1 ∧
      (do_consume function event queue od).raised = none) := by
  constructor
  · intro h
    simp [do_consume, h, rescue]
  · intro h
    simp [do_consume, h]

/-- C5 witness: the two consume failure modes at concrete inputs. -/
theorem do_consume_error_handling_witness :
    ((do_consume (fun e => ({ e with data := 9 }, some .queueFull))
        ⟨0, 5⟩ [⟨1, 2⟩] 5).queue
      = rescue [⟨1, 2⟩] ⟨0, 5⟩ ∧
      ((⟨0, 5⟩ : Ev) : Ev).data = 5 ∧
      (do_consume (fun e => ({ e with data := 9 }, some .queueFull))
        ⟨0, 5⟩ [⟨1, 2⟩] 5).waitedUntilFree = true ∧
      (do_consume (fun e => ({ e with data := 9 }, some .queueFull))
        ⟨0, 5⟩ [⟨1, 2⟩] 5).raised = none) ∧
    ((do_consume (fun e => (e, some .otherExc)) ⟨0, 5⟩ [⟨1, 2⟩] 5).queue
        = [⟨1, 2⟩] ∧
      (do_consume (fun e => (e, some .otherExc)) ⟨0, 5⟩ [⟨1, 2⟩] 5).prints
        = [.standardOut] ∧
      (do_consume (fun e => (e, some .otherExc))
        ⟨0, 5⟩ [⟨1, 2⟩] 5).loggerErrorCalls = 1 ∧
      (do_consume (fun e => (e, some .otherExc)) ⟨0, 5⟩ [⟨1, 2⟩] 5).raised
        = none) :=
  ⟨(do_consume_error_handling
      (fun e => ({ e with data := 9 }, some .queueFull))
      ⟨0, 5⟩ ⟨0, 9⟩ [⟨1, 2⟩] 5).1 rfl,
   (do_consume_error_handling (fun e => (e, some .otherExc))
      ⟨0, 5⟩ ⟨0, 5⟩ [⟨1, 2⟩] 5).2 rfl⟩

/-- An outbound queue as the metric emitter sees it: its `name` attribute
and its `stats()` snapshot, a mapping from stat name to value (modelled
from the spec: `Queue.stats()` reports size, capacity, total-in,
total-out; compysition/queue.py is not among the provided sources). -/
structure MQueue where
  name : String
  stats : List (String × Nat)

/-- One put performed by the metric emitter: the event dict with empty
header and the 7-tuple data payload. -/
structure MetricRecord where
  header : List (String × String)
  data : Nat × String × String × String × Nat × String × Unit
deriving DecidableEq

/-- One cycle of `Actor.__metric_emitter` (actor.py lines 272-282): for
every outbound queue and every entry of its stats snapshot, put one
record onto `pool.queues.metrics` (the reserved metrics outbound queue,
id `metricsQ`) whose data is
`(timestamp, "compysition", hostname, "queue.<actor>.<queue>.<stat>",
value, "", ())`.  The result is the list of (target queue, record) puts
in order. -/
def metric_emit_cycle (actorName host : String) (ts : Nat) (metricsQ : Nat)
    (outbound : List MQueue) : List (Nat × MetricRecord) :=
  outbound.flatMap (fun q =>
    q.stats.map (fun sv =>
      (metricsQ,
        { header := [],
          data := (ts, "compysition", host,
            "queue." ++ actorName ++ "." ++ q.name ++ "." ++ sv.1,
            sv.2, "", ()) })))

/-- C9: every record the metric emitter puts in one cycle goes to the
reserved metrics queue and is the 7-tuple
`(timestamp, "compysition", hostname, "queue.<actor>.<queue>.<stat>",
value, "", ())` for some outbound queue and stat entry; there is exactly
one record per (outbound queue, stat-name) pair, and conversely every
such pair produces its record. -/
theorem metric_emit_cycle_spec (actorName host : String) (ts : Nat)
    (metricsQ : Nat) (outbound : List MQueue) :
    (metric_emit_cycle actorName host ts metricsQ outbound).length
      = (outbound.map (fun q => q.stats.length)).sum ∧
    (∀ r ∈ metric_emit_cycle actorName host ts metricsQ outbound,
      r.1 = metricsQ ∧
      ∃ q, q ∈ outbound ∧ ∃ sv, sv ∈ q.stats ∧
        r.2.header = [] ∧
        r.2.data = (ts, "compysition", host,
          "queue." ++ actorName ++ "." ++ q.name ++ "." ++ sv.1,
          sv.2, "", ())) ∧
    (∀ q ∈ outbound, ∀ sv ∈ q.stats,
      (metricsQ,
        ({ header := [],
           data := (ts, "compysition", host,
             "queue." ++ actorName ++ "." ++ q.name ++ "." ++ sv.1,
             sv.2, "", ()) } : MetricRecord))
        ∈ metric_emit_cycle actorName host ts metricsQ outbound) := by
  refine ⟨?_, ?_, ?_⟩
  · simp only [metric_emit_cycle, List.length_flatMap, Function.comp_def, List.length_map]
  · intro r hr
    simp only [metric_emit_cycle, List.mem_flatMap, List.mem_map] at hr
    obtain ⟨q, hq, sv, hsv, hrec⟩ := hr
    subst hrec
    exact ⟨rfl, q, hq, sv, hsv, rfl, rfl⟩
  · intro q hq sv hsv
    simp only [metric_emit_cycle, List.mem_flatMap, List.mem_map]
    exact ⟨q, hq, sv, hsv, rfl⟩

/-- The atomic effects of the Actor lifecycle methods. -/
inductive LifeEvt
  | connectLogsQueue
  | spawnMetricEmitter
  | preHook
  | runSet
  | loopClear
  | blockSet
  | joinThreads
  | postHook
deriving DecidableEq

/-- `Actor.start` (actor.py lines 142-154) as the ordered sequence of its
effects: attach the logger to the reserved logs queue, spawn the metric
emitter when `generate_metrics`, run `pre_hook` when defined, and only
then set the run gate that the consume workers wait on. -/
def startTrace (generate_metrics has_pre_hook : Bool) : List LifeEvt :=
  [.connectLogsQueue]
    ++ (if generate_metrics then [.spawnMetricEmitter] else [])
    ++ (if has_pre_hook then [.preHook] else [])
    ++ [.runSet]

/-- `Actor.stop` (actor.py lines 156-166) as the ordered sequence of its
effects: clear the loop flag, set the block gate, join the supervised
pool, and run `post_hook` when defined. -/
def stopTrace (has_post_hook : Bool) : List LifeEvt :=
  [.loopClear, .blockSet, .joinThreads]
    ++ (if has_post_hook then [.postHook] else [])

/-- A global event: a lifecycle effect of the actor, or a consume worker
dequeueing event `n` from its inbound queue (`Actor.__consumer`). -/
inductive SysEvt
  | actorEvt (e : LifeEvt)
  | dequeue (n : Nat)
deriving DecidableEq

/-- Whether a global event is a lifecycle effect. -/
def isLife : SysEvt → Bool
  | .actorEvt _ => true
  | .dequeue _ => false

/-- C6: in any global trace whose lifecycle events are exactly one
execution of `Actor.start` (with a pre_hook defined) and in which every
dequeue is preceded by the run-gate set — `Actor.__consumer` opens with
`self.__run.wait()` — every dequeue is preceded by the pre_hook; within
`startTrace` itself the pre_hook strictly precedes the run-gate set, and
within `stopTrace` the pool join strictly precedes the post_hook. -/
theorem pre_hook_before_consume (gm : Bool) (t : List SysEvt)
    (hstart : t.filter isLife = (startTrace gm true).map SysEvt.actorEvt)
    (hgate : ∀ t1 n t2, t = t1 ++ SysEvt.dequeue n :: t2 →
      SysEvt.actorEvt .runSet ∈ t1) :
    (∀ t1 n t2, t = t1 ++ SysEvt.dequeue n :: t2 →
      SysEvt.actorEvt .preHook ∈ t1) ∧
    (startTrace gm true).indexOf .preHook
      < (startTrace gm true).indexOf .runSet ∧
    (stopTrace true).indexOf .joinThreads
      < (stopTrace true).indexOf .postHook := by
  have hsplit : (startTrace gm true).map SysEvt.actorEvt =
      (([LifeEvt.connectLogsQueue]
        ++ (if gm then [LifeEvt.spawnMetricEmitter] else [])
        ++ [LifeEvt.preHook]).map SysEvt.actorEvt)
      ++ [SysEvt.actorEvt .runSet] := by
    cases gm <;> simp [startTrace]
  set init := ([LifeEvt.connectLogsQueue]
        ++ (if gm then [LifeEvt.spawnMetricEmitter] else [])
        ++ [LifeEvt.preHook]).map SysEvt.actorEvt with hinit
  have hrun_not : SysEvt.actorEvt .runSet ∉ init := by
    cases gm <;> simp [hinit]
  have hpre_mem : SysEvt.actorEvt .preHook ∈ init := by
    cases gm <;> simp [hinit]
  refine ⟨?_, ?_, ?_⟩
  · intro t1 n t2 heq
    have hrun := hgate t1 n t2 heq
    have hfil : t.filter isLife = t1.filter isLife ++ t2.filter isLife := by
      rw [heq]
      simp [isLife]
    rw [hstart, hsplit] at hfil
    rcases List.append_eq_append_iff.mp hfil.symm with ⟨a, ha1, _⟩ | ⟨c, hc1, _⟩
    · exfalso
      apply hrun_not
      have : SysEvt.actorEvt .runSet ∈ t1.filter isLife :=
        List.mem_filter.mpr ⟨hrun, rfl⟩
      rw [ha1]
      exact List.mem_append_left _ this
    · have : SysEvt.actorEvt .preHook ∈ t1.filter isLife := by
        rw [hc1]
        exact List.mem_append_left _ hpre_mem
      exact (List.mem_filter.mp this).1
  · cases gm <;> decide
  · decide

/-- C6 witness: the concrete trace of one full start (metrics on,
pre_hook defined) followed by a single dequeue satisfies both
hypotheses and hence has the pre_hook before the dequeue. -/
theorem pre_hook_before_consume_witness :
    (∀ t1 n t2,
      (startTrace true true).map SysEvt.actorEvt ++ [SysEvt.dequeue 0]
        = t1 ++ SysEvt.dequeue n :: t2 →
      SysEvt.actorEvt .preHook ∈ t1) ∧
    (startTrace true true).indexOf .preHook
      < (startTrace true true).indexOf .runSet ∧
    (stopTrace true).indexOf .joinThreads
      < (stopTrace true).indexOf .postHook := by
  refine pre_hook_before_consume true
    ((startTrace true true).map SysEvt.actorEvt ++ [SysEvt.dequeue 0])
    (by decide) ?_
  intro t1 n t2 heq
  rcases t1 with _ | ⟨x1, _ | ⟨x2, _ | ⟨x3, _ | ⟨x4, _ | ⟨x5, t1'⟩⟩⟩⟩⟩ <;>
    simp_all [startTrace]

/-- The atomic effects observable during `Director.stop`. -/
inductive DirEvt
  | directorBlockSet
  | actorLoopClear (a : String)
  | actorBlockSet (a : String)
  | actorJoin (a : String)
  | actorPostHook (a : String)
  | actorStopReturn (a : String)
  | runningCleared
deriving DecidableEq

/-- One `Actor.stop()` call on the actor named `a` (actor.py lines
156-166): clear the loop flag, set the actor's block gate, join the
supervised pool, run the post_hook when defined, return. -/
def actorStopTrace (a : String) (has_post_hook : Bool) : List DirEvt :=
  [.actorLoopClear a, .actorBlockSet a, .actorJoin a]
    ++ (if has_post_hook then [.actorPostHook a] else [])
    ++ [.actorStopReturn a]

/-- `Director.stop` (director.py lines 180-190) as the ordered sequence
of its effects: set the director gate, call `stop()` on every registered
user actor, then on the metric, failed and log sink actors in that
order, clear the running flag, set the director gate again. -/
def directorStopTrace (users : List String) (metricA failedA logA : String)
    (hooks : String → Bool) : List DirEvt :=
  [.directorBlockSet]
    ++ users.flatMap (fun a => actorStopTrace a (hooks a))
    ++ actorStopTrace metricA (hooks metricA)
    ++ actorStopTrace failedA (hooks failedA)
    ++ actorStopTrace logA (hooks logA)
    ++ [.runningCleared, .directorBlockSet]

/-- The stop-return marker of actor `a` occurs in its stop trace. -/
theorem actorStopReturn_mem (a : String) (h : Bool) :
    DirEvt.actorStopReturn a ∈ actorStopTrace a h := by
  cases h <;> simp [actorStopTrace]

/-- The block-gate set of actor `a` occurs in its stop trace. -/
theorem actorBlockSet_mem (a : String) (h : Bool) :
    DirEvt.actorBlockSet a ∈ actorStopTrace a h := by
  cases h <;> simp [actorStopTrace]

/-- Stop events of actor `a` are all tagged `a`: another actor's
loop-clear does not occur in them. -/
theorem actorLoopClear_not_mem (a b : String) (h : Bool) (hne : b ≠ a) :
    DirEvt.actorLoopClear b ∉ actorStopTrace a h := by
  cases h <;> simp [actorStopTrace, hne]

/-- Another actor's stop-return does not occur in `a`'s stop events. -/
theorem actorStopReturn_not_mem (a b : String) (h : Bool) (hne : b ≠ a) :
    DirEvt.actorStopReturn b ∉ actorStopTrace a h := by
  cases h <;> simp [actorStopTrace, hne]

/-- An actor outside `users` has no loop-clear among the user stops. -/
theorem actorLoopClear_not_mem_flat (users : List String)
    (hooks : String → Bool) (b : String) (hb : b ∉ users) :
    DirEvt.actorLoopClear b ∉
      users.flatMap (fun a => actorStopTrace a (hooks a)) := by
  intro hmem
  rcases List.mem_flatMap.mp hmem with ⟨a, ha, he⟩
  exact actorLoopClear_not_mem a b (hooks a) (fun h => hb (h ▸ ha)) he

/-- An actor outside `users` has no stop-return among the user stops. -/
theorem actorStopReturn_not_mem_flat (users : List String)
    (hooks : String → Bool) (b : String) (hb : b ∉ users) :
    DirEvt.actorStopReturn b ∉
      users.flatMap (fun a => actorStopTrace a (hooks a)) := by
  intro hmem
  rcases List.mem_flatMap.mp hmem with ⟨a, ha, he⟩
  exact actorStopReturn_not_mem a b (hooks a) (fun h => hb (h ▸ ha)) he

/-- In a split list, an element of the left part sits strictly before
anything absent from the left part. -/
theorem indexOf_lt_of_split {α : Type} [DecidableEq α] (t l1 l2 : List α)
    (a b : α) (h : t = l1 ++ l2) (ha : a ∈ l1) (hb : b ∉ l1) :
    t.indexOf a < t.indexOf b := by
  subst h
  rw [List.indexOf_append_of_mem ha, List.indexOf_append_of_not_mem hb]
  exact lt_of_lt_of_le (List.indexOf_lt_length.mpr ha) (Nat.le_add_right _ _)

/-- C7: `Director.stop` releases every registered actor's block gate (via
that actor's `stop()`), the user actors' stops complete before the
metric sink's stop begins, which completes before the failed sink's
stop begins, which completes before the log sink's stop begins, and a
set of the Director's own block gate occurs after the log sink's stop
has returned. -/
theorem director_stop_order (users : List String)
    (metricA failedA logA : String) (hooks : String → Bool)
    (hm : metricA ∉ users) (hf : failedA ∉ users) (hlg : logA ∉ users)
    (hfm : failedA ≠ metricA) (hlgm : logA ≠ metricA)
    (hlgf : logA ≠ failedA) :
    (∀ a ∈ users, DirEvt.actorBlockSet a ∈
      directorStopTrace users metricA failedA logA hooks) ∧
    (∀ a ∈ users,
      (directorStopTrace users metricA failedA logA hooks).indexOf
          (.actorStopReturn a)
        < (directorStopTrace users metricA failedA logA hooks).indexOf
          (.actorLoopClear metricA)) ∧
    (directorStopTrace users metricA failedA logA hooks).indexOf
        (.actorStopReturn metricA)
      < (directorStopTrace users metricA failedA logA hooks).indexOf
        (.actorLoopClear failedA) ∧
    (directorStopTrace users metricA failedA logA hooks).indexOf
        (.actorStopReturn failedA)
      < (directorStopTrace users metricA failedA logA hooks).indexOf
        (.actorLoopClear logA) ∧
    ∃ k,
      (directorStopTrace users metricA failedA logA hooks).indexOf
          (.actorStopReturn logA) < k ∧
      (directorStopTrace users metricA failedA logA hooks)[k]?
        = some DirEvt.directorBlockSet := by
  refine ⟨?_, ?_, ?_, ?_, ?_⟩
  · intro a ha
    simp only [directorStopTrace, List.mem_append, List.mem_flatMap]
    exact Or.inl (Or.inl (Or.inl (Or.inl (Or.inr
      ⟨a, ha, actorBlockSet_mem a (hooks a)⟩))))
  · intro a ha
    refine indexOf_lt_of_split _
      ([DirEvt.directorBlockSet]
        ++ users.flatMap (fun x => actorStopTrace x (hooks x)))
      (actorStopTrace metricA (hooks metricA)
        ++ actorStopTrace failedA (hooks failedA)
        ++ actorStopTrace logA (hooks logA)
        ++ [DirEvt.runningCleared, DirEvt.directorBlockSet])
      _ _ (by simp [directorStopTrace]) ?_ ?_
    · exact List.mem_append_right _
        (List.mem_flatMap.mpr ⟨a, ha, actorStopReturn_mem a (hooks a)⟩)
    · simp only [List.mem_append, List.mem_singleton]
      rintro (h1 | h2)
      · cases h1
      · exact actorLoopClear_not_mem_flat users hooks metricA hm h2
  · refine indexOf_lt_of_split _
      ([DirEvt.directorBlockSet]
        ++ users.flatMap (fun x => actorStopTrace x (hooks x))
        ++ actorStopTrace metricA (hooks metricA))
      (actorStopTrace failedA (hooks failedA)
        ++ actorStopTrace logA (hooks logA)
        ++ [DirEvt.runningCleared, DirEvt.directorBlockSet])
      _ _ (by simp [directorStopTrace]) ?_ ?_
    · exact List.mem_append_right [DirEvt.directorBlockSet]
        (List.mem_append_right
          (users.flatMap (fun x => actorStopTrace x (hooks x)))
          (actorStopReturn_mem metricA (hooks metricA)))
    · simp only [List.mem_append, List.mem_singleton]
      rintro ((h1 | h2) | h3)
      · cases h1
      · exact actorLoopClear_not_mem_flat users hooks failedA hf h2
      · exact actorLoopClear_not_mem metricA failedA (hooks metricA) hfm h3
  · refine indexOf_lt_of_split _
      ([DirEvt.directorBlockSet]
        ++ users.flatMap (fun x => actorStopTrace x (hooks x))
        ++ actorStopTrace metricA (hooks metricA)
        ++ actorStopTrace failedA (hooks failedA))
      (actorStopTrace logA (hooks logA)
        ++ [DirEvt.runningCleared, DirEvt.directorBlockSet])
      _ _ (by simp [directorStopTrace]) ?_ ?_
    · simp [List.mem_append, actorStopReturn_mem]
    · simp only [List.mem_append, List.mem_singleton]
      rintro (((h1 | h2) | h3) | h4)
      · cases h1
      · exact actorLoopClear_not_mem_flat users hooks logA hlg h2
      · exact actorLoopClear_not_mem metricA logA (hooks metricA) hlgm h3
      · exact actorLoopClear_not_mem failedA logA (hooks failedA) hlgf h4
  · refine ⟨([DirEvt.directorBlockSet]
        ++ users.flatMap (fun x => actorStopTrace x (hooks x))
        ++ actorStopTrace metricA (hooks metricA)
        ++ actorStopTrace failedA (hooks failedA)
        ++ actorStopTrace logA (hooks logA)).length + 1, ?_, ?_⟩
    · have hsplit : directorStopTrace users metricA failedA logA hooks =
        ([DirEvt.directorBlockSet]
          ++ users.flatMap (fun x => actorStopTrace x (hooks x))
          ++ actorStopTrace metricA (hooks metricA)
          ++ actorStopTrace failedA (hooks failedA)
          ++ actorStopTrace logA (hooks logA))
        ++ [DirEvt.runningCleared, DirEvt.directorBlockSet] := by
        simp [directorStopTrace]
      have hmem : DirEvt.actorStopReturn logA ∈
          ([DirEvt.directorBlockSet]
            ++ users.flatMap (fun x => actorStopTrace x (hooks x))
            ++ actorStopTrace metricA (hooks metricA)
            ++ actorStopTrace failedA (hooks failedA)
            ++ actorStopTrace logA (hooks logA)) :=
        by simp [List.mem_append, actorStopReturn_mem]
      rw [hsplit, List.indexOf_append_of_mem hmem]
      exact Nat.lt_succ_of_lt
        (lt_of_lt_of_le (List.indexOf_lt_length.mpr hmem) (Nat.le_refl _))
    · have hsplit : directorStopTrace users metricA failedA logA hooks =
        ([DirEvt.directorBlockSet]
          ++ users.flatMap (fun x => actorStopTrace x (hooks x))
          ++ actorStopTrace metricA (hooks metricA)
          ++ actorStopTrace failedA (hooks failedA)
          ++ actorStopTrace logA (hooks logA))
        ++ [DirEvt.runningCleared, DirEvt.directorBlockSet] := by
        simp [directorStopTrace]
      rw [hsplit, List.getElem?_append_right (Nat.le_succ_of_le (Nat.le_refl _))]
      simp

/-- C7 witness: the stop order at a concrete director with two user
actors and three distinct sinks. -/
theorem director_stop_order_witness :
    (∀ a ∈ ["u1", "u2"], DirEvt.actorBlockSet a ∈
      directorStopTrace ["u1", "u2"] "met" "fail" "log" (fun _ => false)) ∧
    (∀ a ∈ ["u1", "u2"],
      (directorStopTrace ["u1", "u2"] "met" "fail" "log"
        (fun _ => false)).indexOf (.actorStopReturn a)
        < (directorStopTrace ["u1", "u2"] "met" "fail" "log"
          (fun _ => false)).indexOf (.actorLoopClear "met")) ∧
    (directorStopTrace ["u1", "u2"] "met" "fail" "log"
      (fun _ => false)).indexOf (.actorStopReturn "met")
      < (directorStopTrace ["u1", "u2"] "met" "fail" "log"
        (fun _ => false)).indexOf (.actorLoopClear "fail") ∧
    (directorStopTrace ["u1", "u2"] "met" "fail" "log"
      (fun _ => false)).indexOf (.actorStopReturn "fail")
      < (directorStopTrace ["u1", "u2"] "met" "fail" "log"
        (fun _ => false)).indexOf (.actorLoopClear "log") ∧
    ∃ k,
      (directorStopTrace ["u1", "u2"] "met" "fail" "log"
        (fun _ => false)).indexOf (.actorStopReturn "log") < k ∧
      (directorStopTrace ["u1", "u2"] "met" "fail" "log"
        (fun _ => false))[k]? = some DirEvt.directorBlockSet :=
  director_stop_order ["u1", "u2"] "met" "fail" "log" (fun _ => false)
    (by decide) (by decide) (by decide) (by decide) (by decide) (by decide)

/-- A `connect_queue` call with `error_queue=False, check_existing=False`,
as the Director performs during `_setup_default_connections`; with
`check_existing=False` no error is ever raised, so only the state is
kept. -/
def connect_ok (s : Sys) (self dest sn dn : String) : Sys :=
  (connect_queue s self dest sn dn false false).2

/-- With `check_existing=False`, `connect_queue` never raises. -/
theorem connect_ok_no_error (s : Sys) (self dest sn dn : String) :
    (connect_queue s self dest sn dn false false).1 = none := by
  unfold connect_queue
  rcases lookupSource (s.pools self) sn with _ | sq <;>
    rcases (s.pools dest).inbound_queues dn with _ | dq <;>
      simp

/-- `connect_ok` touches at most the pools of `self` and `dest`. -/
theorem connect_ok_pools_other (s : Sys) (self dest sn dn n : String)
    (h1 : n ≠ self) (h2 : n ≠ dest) :
    (connect_ok s self dest sn dn).pools n = s.pools n := by
  unfold connect_ok connect_queue
  rcases hs : lookupSource (s.pools self) sn with _ | sq <;>
    rcases hd : (s.pools dest).inbound_queues dn with _ | dq <;>
      simp [register_consumer, Sys.upd, h1, h2]

/-- When the destination's inbound queue already exists, `connect_ok`
only updates the producer's pool. -/
theorem connect_ok_dest_some (s : Sys) (self dest sn dn : String) (dq : Nat)
    (hd : (s.pools dest).inbound_queues dn = some dq) (n : String)
    (hn : n ≠ self) :
    (connect_ok s self dest sn dn).pools n = s.pools n := by
  unfold connect_ok connect_queue
  rcases hs : lookupSource (s.pools self) sn with _ | sq <;>
    simp [hd, Sys.upd, hn]

/-- When the destination's inbound queue already exists, no inbound
mapping of any actor changes (the move/adopt branches only touch
outbound-side mappings of the producer). -/
theorem connect_ok_inbound_all (s : Sys) (self dest sn dn : String)
    (dq : Nat) (hd : (s.pools dest).inbound_queues dn = some dq)
    (n : String) :
    ((connect_ok s self dest sn dn).pools n).inbound_queues
      = (s.pools n).inbound_queues := by
  unfold connect_ok connect_queue
  rcases hs : lookupSource (s.pools self) sn with _ | sq <;>
    rcases hes : (s.pools self).default_outbound_queues sn with _ | f <;>
      simp [hd, Sys.upd, lookupScope, hes, APool.move_queue,
        APool.add_outbound_queue] <;>
    (split <;> simp_all)

/-- When the producer's reserved source queue exists and the
destination's inbound queue exists, `connect_ok` is exactly the
`move_queue` of the reserved entry onto the destination's queue. -/
theorem connect_ok_move_default_eq (s : Sys) (self dest sn dn : String)
    (f q : Nat)
    (hs : (s.pools self).default_outbound_queues sn = some f)
    (hd : (s.pools dest).inbound_queues dn = some q) :
    connect_ok s self dest sn dn
      = s.upd self ((s.pools self).move_queue f q Scope.defaultOutbound) := by
  unfold connect_ok connect_queue
  simp [lookupSource, lookupScope, hs, hd]

/-- When the producer's source queue exists and the destination's inbound
queue does not, `connect_ok` is exactly `register_consumer`. -/
theorem connect_ok_register (s : Sys) (self dest sn dn : String) (sq : Nat)
    (hs : lookupSource (s.pools self) sn = some sq)
    (hd : (s.pools dest).inbound_queues dn = none) :
    connect_ok s self dest sn dn = register_consumer s dest dn sq := by
  unfold connect_ok connect_queue
  simp [hs, hd]

/-- When the destination's inbound queue is missing, `connect_ok` always
creates it (either a fresh queue or the producer's existing queue is
registered on the consumer). -/
theorem connect_ok_dest_none_creates (s : Sys) (self dest sn dn : String)
    (hd : (s.pools dest).inbound_queues dn = none) :
    ∃ q, ((connect_ok s self dest sn dn).pools dest).inbound_queues dn
      = some q := by
  unfold connect_ok connect_queue
  rcases hs : lookupSource (s.pools self) sn with _ | sq <;>
    simp [hd, register_consumer, APool.add_inbound_queue, Sys.upd,
      APool.add_outbound_queue, QMap.upd]

/-- A reserved entry of the producer's default-outbound mapping survives
a `connect_ok` on a different reserved entry as long as their queue ids
differ (the move replaces by queue identity). -/
theorem connect_ok_preserves_entry (s : Sys) (self dest sn dn n2 : String)
    (m f : Nat)
    (hs : (s.pools self).default_outbound_queues sn = some m)
    (hv : (s.pools self).default_outbound_queues n2 = some f)
    (hne : f ≠ m) :
    ((connect_ok s self dest sn dn).pools self).default_outbound_queues n2
      = some f := by
  unfold connect_ok connect_queue
  rcases hd : (s.pools dest).inbound_queues dn with _ | dq
  · simp [lookupSource, hs, hd, register_consumer, Sys.upd,
      APool.add_inbound_queue]
    split
    · simp_all
    · exact hv
  · simp [lookupSource, lookupScope, hs, hd, Sys.upd, APool.move_queue,
      QMap.replaceVal, hv, hne]

/-- The moved reserved entry itself points at the destination's queue
afterwards. -/
theorem connect_ok_move_default_self (s : Sys) (self dest sn dn : String)
    (f q : Nat)
    (hs : (s.pools self).default_outbound_queues sn = some f)
    (hd : (s.pools dest).inbound_queues dn = some q) :
    ((connect_ok s self dest sn dn).pools self).default_outbound_queues sn
      = some q := by
  rw [connect_ok_move_default_eq s self dest sn dn f q hs hd]
  simp [Sys.upd, APool.move_queue, QMap.replaceVal, hs]

/-- The reserved default-outbound queues of a freshly constructed actor:
`logs`, `metrics`, `failed` exist and are three distinct Queue objects. -/
def ReservedOK (s : Sys) (a : String) : Prop :=
  ∃ l m f,
    (s.pools a).default_outbound_queues "logs" = some l ∧
    (s.pools a).default_outbound_queues "metrics" = some m ∧
    (s.pools a).default_outbound_queues "failed" = some f ∧
    l ≠ m ∧ l ≠ f ∧ m ≠ f

/-- The three reserved connections the Director performs for one
registered actor (director.py lines 149-152): logs to the log sink's
inbox, metrics to the metric sink's inbox, failed to the failed sink's
inbox, each with `check_existing=False`. -/
def wireUser (logA metricA failedA : String) (s : Sys) (a : String) : Sys :=
  connect_ok
    (connect_ok (connect_ok s a logA "logs" "inbox")
      a metricA "metrics" "inbox")
    a failedA "failed" "inbox"

/-- The Director state of the embedding: the queue-pool system, the
registered user actors in order, the three sink slots, and whether the
failed/log slots still hold their Null defaults. -/
structure Director where
  sys : Sys
  actors : List String
  log_actor : String
  metric_actor : String
  failed_actor : String
  failedIsNull : Bool
  logIsNull : Bool

/-- `Director._setup_default_connections` (director.py lines 138-155):
alias the failed sink to the log sink when only a log sink was
registered (else wire the failed sink's logs); wire every registered
actor's reserved logs/metrics/failed queues to the sinks' inboxes; wire
the log sink's own logs to itself and the metric sink's logs to the log
sink, all with `check_existing=False`. -/
def setup_default_connections (d : Director) : Director :=
  let d1 :=
    if d.failedIsNull && !d.logIsNull then
      { d with failed_actor := d.log_actor, failedIsNull := d.logIsNull }
    else
      { d with sys :=
          connect_ok d.sys d.failed_actor d.log_actor "logs" "inbox" }
  let s1 := d1.actors.foldl
    (wireUser d1.log_actor d1.metric_actor d1.failed_actor) d1.sys
  let s2 := connect_ok s1 d1.log_actor d1.log_actor "logs" "inbox"
  let s3 := connect_ok s2 d1.metric_actor d1.log_actor "logs" "inbox"
  { d1 with sys := s3 }

/-- `Director.start` (director.py lines 160-174) restricted to its effect
on the queue pools: `_setup_default_connections` does all the wiring and
the subsequent `Actor.start` calls (actor.py lines 142-154) modify no
pool. -/
def director_start_pools (d : Director) : Director :=
  setup_default_connections d

/-- One `wireUser` step when the log sink's inbox already exists: the
inbox is untouched, the user's reserved `failed` queue now is the log
sink's inbox queue, and no pool other than the user's and the metric
sink's changes.  Instantiated with the failed sink aliased to the log
sink. -/
theorem wireUser_step (s : Sys) (a L M : String) (q : Nat)
    (haL : a ≠ L) (hML : M ≠ L)
    (hres : ReservedOK s a)
    (hq : (s.pools L).inbound_queues "inbox" = some q) :
    ((wireUser L M L s a).pools L).inbound_queues "inbox" = some q ∧
    ((wireUser L M L s a).pools a).default_outbound_queues "failed"
      = some q ∧
    (∀ n, n ≠ a → n ≠ M → (wireUser L M L s a).pools n = s.pools n) := by
  obtain ⟨l, m, f, hl, hm, hf, hlm, hlf, hmf⟩ := hres
  have hLa : L ≠ a := Ne.symm haL
  have hLM : L ≠ M := Ne.symm hML
  -- step A: logs → L.inbox (exists): move on a's reserved scope
  have hAeq : connect_ok s a L "logs" "inbox"
      = s.upd a ((s.pools a).move_queue l q Scope.defaultOutbound) :=
    connect_ok_move_default_eq s a L "logs" "inbox" l q hl hq
  have hApoolother : ∀ n, n ≠ a →
      (connect_ok s a L "logs" "inbox").pools n = s.pools n := by
    intro n hn
    rw [hAeq]
    exact Sys.upd_pools_other s a n _ hn
  have hAm : ((connect_ok s a L "logs" "inbox").pools a).default_outbound_queues
      "metrics" = some m :=
    connect_ok_preserves_entry s a L "logs" "inbox" "metrics" l m hl hm
      (Ne.symm hlm)
  have hAf : ((connect_ok s a L "logs" "inbox").pools a).default_outbound_queues
      "failed" = some f :=
    connect_ok_preserves_entry s a L "logs" "inbox" "failed" l f hl hf
      (Ne.symm hlf)
  set sA := connect_ok s a L "logs" "inbox" with hsA
  have hAL : (sA.pools L).inbound_queues "inbox" = some q := by
    rw [hApoolother L hLa]
    exact hq
  -- step B: metrics → M.inbox (may or may not exist): touches a and M only
  set sB := connect_ok sA a M "metrics" "inbox" with hsB
  have hBf : (sB.pools a).default_outbound_queues "failed" = some f :=
    connect_ok_preserves_entry sA a M "metrics" "inbox" "failed" m f hAm hAf
      (Ne.symm hmf)
  have hBother : ∀ n, n ≠ a → n ≠ M → sB.pools n = sA.pools n := by
    intro n hn1 hn2
    exact connect_ok_pools_other sA a M "metrics" "inbox" n hn1 hn2
  have hBL : (sB.pools L).inbound_queues "inbox" = some q := by
    rw [hBother L hLa hLM]
    exact hAL
  -- step C: failed → L.inbox (exists): move on a's reserved scope
  refine ⟨?_, ?_, ?_⟩
  · have := connect_ok_dest_some sB a L "failed" "inbox" q hBL L hLa
    show ((connect_ok sB a L "failed" "inbox").pools L).inbound_queues
      "inbox" = some q
    rw [this]
    exact hBL
  · exact connect_ok_move_default_self sB a L "failed" "inbox" f q hBf hBL
  · intro n hn1 hn2
    show (connect_ok sB a L "failed" "inbox").pools n = s.pools n
    rw [connect_ok_dest_some sB a L "failed" "inbox" q hBL n hn1,
      hBother n hn1 hn2, hApoolother n hn1]

/-- The first `wireUser` step, when the log sink's inbox does not exist
yet: the user's logs connection registers the log sink's inbox (as the
user's reserved logs queue), and the user's failed connection then moves
the user's reserved `failed` queue onto that same inbox queue. -/
theorem wireUser_first (s : Sys) (a L M : String)
    (haL : a ≠ L) (hML : M ≠ L)
    (hres : ReservedOK s a)
    (hnone : (s.pools L).inbound_queues "inbox" = none) :
    ∃ q,
      ((wireUser L M L s a).pools L).inbound_queues "inbox" = some q ∧
      ((wireUser L M L s a).pools a).default_outbound_queues "failed"
        = some q ∧
      (∀ n, n ≠ a → n ≠ M → n ≠ L →
        (wireUser L M L s a).pools n = s.pools n) := by
  obtain ⟨l, m, f, hl, hm, hf, hlm, hlf, hmf⟩ := hres
  have hLa : L ≠ a := Ne.symm haL
  have hLM : L ≠ M := Ne.symm hML
  have hlookup : lookupSource (s.pools a) "logs" = some l := by
    simp [lookupSource, hl]
  have hAeq : connect_ok s a L "logs" "inbox"
      = register_consumer s L "inbox" l :=
    connect_ok_register s a L "logs" "inbox" l hlookup hnone
  set sA := connect_ok s a L "logs" "inbox" with hsA
  have hApoolother : ∀ n, n ≠ L → sA.pools n = s.pools n := by
    intro n hn
    rw [hAeq]
    exact Sys.upd_pools_other s L n _ hn
  have hAL : (sA.pools L).inbound_queues "inbox" = some l := by
    rw [hAeq]
    show ((s.upd L ((s.pools L).add_inbound_queue "inbox" l)).pools
      L).inbound_queues "inbox" = some l
    rw [Sys.upd_pools_self]
    simp [APool.add_inbound_queue, QMap.upd]
  have hAm : (sA.pools a).default_outbound_queues "metrics" = some m := by
    rw [hApoolother a haL]
    exact hm
  have hAf : (sA.pools a).default_outbound_queues "failed" = some f := by
    rw [hApoolother a haL]
    exact hf
  set sB := connect_ok sA a M "metrics" "inbox" with hsB
  have hBf : (sB.pools a).default_outbound_queues "failed" = some f :=
    connect_ok_preserves_entry sA a M "metrics" "inbox" "failed" m f hAm hAf
      (Ne.symm hmf)
  have hBother : ∀ n, n ≠ a → n ≠ M → sB.pools n = sA.pools n :=
    fun n h1 h2 => connect_ok_pools_other sA a M "metrics" "inbox" n h1 h2
  have hBL : (sB.pools L).inbound_queues "inbox" = some l := by
    rw [hBother L hLa hLM]
    exact hAL
  refine ⟨l, ?_, ?_, ?_⟩
  · show ((connect_ok sB a L "failed" "inbox").pools L).inbound_queues
      "inbox" = some l
    rw [connect_ok_dest_some sB a L "failed" "inbox" l hBL L hLa]
    exact hBL
  · exact connect_ok_move_default_self sB a L "failed" "inbox" f l hBf hBL
  · intro n hn1 hn2 hn3
    show (connect_ok sB a L "failed" "inbox").pools n = s.pools n
    rw [connect_ok_dest_some sB a L "failed" "inbox" l hBL n hn1,
      hBother n hn1 hn2, hApoolother n hn3]

/-- Folding `wireUser` over a list of distinct user actors while the log
sink's inbox exists keeps that inbox fixed and points every processed
user's reserved `failed` queue at it; pools of actors outside the list
(other than the metric sink) are untouched. -/
theorem foldl_wireUser (L M : String) (hML : M ≠ L) (users : List String) :
    ∀ s q, users.Nodup → (∀ a ∈ users, a ≠ L) → (∀ a ∈ users, a ≠ M) →
    (∀ a ∈ users, ReservedOK s a) →
    (s.pools L).inbound_queues "inbox" = some q →
    ((users.foldl (wireUser L M L) s).pools L).inbound_queues "inbox"
      = some q ∧
    (∀ a ∈ users,
      ((users.foldl (wireUser L M L) s).pools a).default_outbound_queues
        "failed" = some q) ∧
    (∀ n, n ∉ users → n ≠ M →
      (users.foldl (wireUser L M L) s).pools n = s.pools n) := by
  induction users with
  | nil =>
      intro s q _ _ _ _ hq
      exact ⟨hq, by simp, fun n _ _ => rfl⟩
  | cons a rest ih =>
      intro s q hnodup hL hM hres hq
      have hnd := List.nodup_cons.mp hnodup
      obtain ⟨h1, h2, h3⟩ :=
        wireUser_step s a L M q (hL a (by simp)) hML (hres a (by simp)) hq
      have hres2 : ∀ b ∈ rest, ReservedOK (wireUser L M L s a) b := by
        intro b hb
        have hba : b ≠ a := fun h => hnd.1 (h ▸ hb)
        have := hres b (List.mem_cons_of_mem a hb)
        unfold ReservedOK at this ⊢
        rw [h3 b hba (hM b (List.mem_cons_of_mem a hb))]
        exact this
      obtain ⟨g1, g2, g3⟩ := ih (wireUser L M L s a) q hnd.2
        (fun b hb => hL b (List.mem_cons_of_mem a hb))
        (fun b hb => hM b (List.mem_cons_of_mem a hb))
        hres2 h1
      refine ⟨?_, ?_, ?_⟩
      · simpa only [List.foldl_cons] using g1
      · intro b hb
        rcases List.mem_cons.mp hb with hba | hbr
        · subst hba
          simp only [List.foldl_cons]
          rw [g3 b hnd.1 (hM b (by simp))]
          exact h2
        · simpa only [List.foldl_cons] using g2 b hbr
      · intro n hn hnM
        have hna : n ≠ a := fun h => hn (h ▸ List.mem_cons_self a rest)
        have hnr : n ∉ rest := fun h => hn (List.mem_cons_of_mem a h)
        simp only [List.foldl_cons]
        rw [g3 n hnr hnM, h3 n hna hnM]

/-- The system-level content of `_setup_default_connections` in the
aliased scenario: after the user fold and the final log/metric logs
connections, the log sink's inbox exists and every user's reserved
`failed` queue is that same queue object. -/
theorem setup_sys_failed (users : List String) (s : Sys) (L M : String)
    (hnodup : users.Nodup) (hL : ∀ a ∈ users, a ≠ L)
    (hM : ∀ a ∈ users, a ≠ M) (hML : M ≠ L)
    (hres : ∀ a ∈ users, ReservedOK s a)
    (hinbox : (s.pools L).inbound_queues "inbox" = none) :
    ∃ q,
      ((connect_ok (connect_ok (users.foldl (wireUser L M L) s)
          L L "logs" "inbox") M L "logs" "inbox").pools
        L).inbound_queues "inbox" = some q ∧
      ∀ a ∈ users,
        ((connect_ok (connect_ok (users.foldl (wireUser L M L) s)
            L L "logs" "inbox") M L "logs" "inbox").pools
          a).default_outbound_queues "failed" = some q := by
  have hLM : L ≠ M := Ne.symm hML
  rcases users with _ | ⟨u, rest⟩
  · -- no registered actors: the log sink's self-connection creates the
    -- inbox, the metric sink's connection leaves it alone
    simp only [List.foldl_nil]
    obtain ⟨q, hq⟩ := connect_ok_dest_none_creates s L L "logs" "inbox" hinbox
    refine ⟨q, ?_, by simp⟩
    rw [connect_ok_dest_some (connect_ok s L L "logs" "inbox")
      M L "logs" "inbox" q hq L hLM]
    exact hq
  · have hu_mem : u ∈ u :: rest := List.mem_cons_self u rest
    have hnd := List.nodup_cons.mp hnodup
    obtain ⟨q, hW1, hW2, hW3⟩ :=
      wireUser_first s u L M (hL u hu_mem) hML (hres u hu_mem) hinbox
    have hres2 : ∀ b ∈ rest, ReservedOK (wireUser L M L s u) b := by
      intro b hb
      have hba : b ≠ u := fun h => hnd.1 (h ▸ hb)
      have := hres b (List.mem_cons_of_mem u hb)
      unfold ReservedOK at this ⊢
      rw [hW3 b hba (hM b (List.mem_cons_of_mem u hb))
        (hL b (List.mem_cons_of_mem u hb))]
      exact this
    obtain ⟨g1, g2, g3⟩ := foldl_wireUser L M hML rest
      (wireUser L M L s u) q hnd.2
      (fun b hb => hL b (List.mem_cons_of_mem u hb))
      (fun b hb => hM b (List.mem_cons_of_mem u hb))
      hres2 hW1
    set s1 := rest.foldl (wireUser L M L) (wireUser L M L s u) with hs1
    have hfold : (u :: rest).foldl (wireUser L M L) s = s1 := by
      simp only [List.foldl_cons, hs1]
    have hfailed : ∀ a ∈ u :: rest,
        (s1.pools a).default_outbound_queues "failed" = some q := by
      intro b hb
      rcases List.mem_cons.mp hb with hbu | hbr
      · subst hbu
        rw [g3 b hnd.1 (hM b hu_mem)]
        exact hW2
      · exact g2 b hbr
    -- the log sink's self logs connection: inbox exists, so no inbound
    -- mapping changes and only the log sink's pool changes at all
    set s2 := connect_ok s1 L L "logs" "inbox" with hs2
    have h2L : (s2.pools L).inbound_queues "inbox" = some q := by
      rw [hs2, connect_ok_inbound_all s1 L L "logs" "inbox" q g1 L]
      exact g1
    have h2users : ∀ a ∈ u :: rest,
        (s2.pools a).default_outbound_queues "failed" = some q := by
      intro b hb
      rw [hs2, connect_ok_dest_some s1 L L "logs" "inbox" q g1 b (hL b hb)]
      exact hfailed b hb
    -- the metric sink's logs connection: only the metric pool changes
    refine ⟨q, ?_, ?_⟩
    · rw [hfold]
      show ((connect_ok s2 M L "logs" "inbox").pools L).inbound_queues
        "inbox" = some q
      rw [connect_ok_dest_some s2 M L "logs" "inbox" q h2L L hLM]
      exact h2L
    · intro b hb
      rw [hfold]
      show ((connect_ok s2 M L "logs" "inbox").pools
        b).default_outbound_queues "failed" = some q
      rw [connect_ok_dest_some s2 M L "logs" "inbox" q h2L b (hM b hb)]
      exact h2users b hb

/-- C8: when a log sink was registered but no failed sink, after
`Director.start` the failed-sink slot IS the log actor, the log actor
has an inbound `inbox` queue, and every registered actor's reserved
`failed` outbound queue is that same Queue object (queue identity). -/
theorem failed_sink_aliases_log (d : Director)
    (hfn : d.failedIsNull = true) (hln : d.logIsNull = false)
    (hnodup : d.actors.Nodup)
    (hL : ∀ a ∈ d.actors, a ≠ d.log_actor)
    (hM : ∀ a ∈ d.actors, a ≠ d.metric_actor)
    (hML : d.metric_actor ≠ d.log_actor)
    (hres : ∀ a ∈ d.actors, ReservedOK d.sys a)
    (hinbox : (d.sys.pools d.log_actor).inbound_queues "inbox" = none) :
    (director_start_pools d).failed_actor = d.log_actor ∧
    ∃ q,
      ((director_start_pools d).sys.pools d.log_actor).inbound_queues
        "inbox" = some q ∧
      ∀ a ∈ d.actors,
        ((director_start_pools d).sys.pools a).default_outbound_queues
          "failed" = some q := by
  have hmain := setup_sys_failed d.actors d.sys d.log_actor d.metric_actor
    hnodup hL hM hML hres hinbox
  constructor
  · simp [director_start_pools, setup_default_connections, hfn, hln]
  · simpa [director_start_pools, setup_default_connections, hfn, hln]
      using hmain

/-- A freshly constructed actor's pool: only the three reserved
default-outbound queues exist, with consecutive ids from `base`. -/
def poolR (base : Nat) : APool :=
  { inbound_queues := QMap.empty, outbound_queues := QMap.empty,
    error_queues := QMap.empty,
    default_outbound_queues :=
      ((QMap.empty.upd "logs" base).upd "metrics" (base + 1)).upd
        "failed" (base + 2) }

/-- A concrete pre-start system: two user actors, a log sink and a
metric sink, each with fresh reserved queues. -/
def sysC8 : Sys :=
  { pools := fun n =>
      if n = "u1" then poolR 0
      else if n = "u2" then poolR 3
      else if n = "log" then poolR 6
      else if n = "met" then poolR 9
      else emptyPool,
    fresh := 12 }

/-- A concrete director with a registered log sink and the failed slot
still holding its Null default. -/
def dirC8 : Director :=
  { sys := sysC8, actors := ["u1", "u2"], log_actor := "log",
    metric_actor := "met", failed_actor := "nullf",
    failedIsNull := true, logIsNull := false }

/-- C8 witness: the aliasing theorem applied to the concrete director. -/
theorem failed_sink_aliases_log_witness :
    (director_start_pools dirC8).failed_actor = dirC8.log_actor ∧
    ∃ q,
      ((director_start_pools dirC8).sys.pools
        dirC8.log_actor).inbound_queues "inbox" = some q ∧
      ∀ a ∈ dirC8.actors,
        ((director_start_pools dirC8).sys.pools
          a).default_outbound_queues "failed" = some q :=
  failed_sink_aliases_log dirC8 rfl rfl (by decide)
    (by decide) (by decide) (by decide)
    (by
      intro a ha
      rcases List.mem_cons.mp ha with h | h
      · subst h
        exact ⟨0, 1, 2, rfl, rfl, rfl, by decide, by decide, by decide⟩
      · rcases List.mem_cons.mp h with h2 | h2
        · subst h2
          exact ⟨3, 4, 5, rfl, rfl, rfl, by decide, by decide, by decide⟩
        · cases h2)
    rfl

end Compysition
